import Mathlib

/-!
Verification of the validation / normalization / balance-reconciliation
pipeline of the bank-statement processor.

The TypeScript source is embedded shallowly:
* strings are Lean `String` / `List Char`;
* JavaScript numbers are modelled as `ℚ` (the behaviours verified here do
  not depend on binary floating-point rounding);
* the host functions used by the source (`parseFloat`, `String.trim`,
  `String.split`, ECMAScript `Date`) are modelled as Lean functions whose
  doc comments state the modelled semantics.
-/

namespace BankStatement

/-! ### Generic string helpers (models of the JS string primitives used) -/

/-- Model of JS `String.prototype.split(sep)` on character lists: always
returns a non-empty list of (possibly empty) groups. -/
def splitOnChar (sep : Char) : List Char → List (List Char)
  | [] => [[]]
  | c :: cs =>
    if c = sep then [] :: splitOnChar sep cs
    else
      match splitOnChar sep cs with
      | [] => [[c]]
      | g :: gs => (c :: g) :: gs

/-- Model of JS `String.prototype.trim()` (whitespace restricted to the
ASCII whitespace recognised by `Char.isWhitespace`; the inputs reasoned
about below contain no whitespace at all). -/
def trimList (l : List Char) : List Char :=
  ((l.dropWhile Char.isWhitespace).reverse.dropWhile Char.isWhitespace).reverse

/-- Digit string to number, as JS `Number` does for all-digit strings. -/
def digitsToNat (l : List Char) : Nat :=
  l.foldl (fun acc c => 10 * acc + (c.toNat - 48)) 0

/-! ### Currency parser / validator (src/utils/currencyUtils.ts) -/

structure CurrencyValidationResult where
  isValid : Bool
  message : Option String
deriving DecidableEq

/-- The character class `[0-9,.]` of `validateCurrency`'s first check. -/
def allowedCurrencyChar (c : Char) : Bool :=
  c.isDigit || c == ',' || c == '.'

/-- The `for (let i = 1; ...)` loop of `validateCurrency`: every
thousands-group after the first must have exactly 3 digits.  Returns
`true` when no group violates the rule. -/
def checkThousandGroups : List (List Char) → Bool
  | [] => true
  | g :: gs => (g.length == 3) && checkThousandGroups gs

/-- `value.split(',')[0]`: the integer part of a currency string (the
portion before the comma, or the whole string if no comma). -/
def integerPartOf (l : List Char) : List Char :=
  (splitOnChar ',' l).headD []

/-- Embeds `validateCurrency` from src/utils/currencyUtils.ts. -/
def validateCurrency (s : String) : CurrencyValidationResult :=
  if s = "" ∨ trimList s.data = [] then { isValid := true, message := none }
  else
    let cleanedValue := trimList s.data
    if cleanedValue.any (fun c => !allowedCurrencyChar c) then
      { isValid := false, message := some "Use apenas números, vírgulas e pontos." }
    else if 1 < (cleanedValue.filter (fun c => c = ',')).length then
      { isValid := false, message := some "Apenas uma vírgula é permitida." }
    else if ',' ∈ cleanedValue ∧ 2 < ((splitOnChar ',' cleanedValue).getD 1 []).length then
      { isValid := false, message := some "Apenas duas casas decimais são permitidas." }
    else
      let integerPart := integerPartOf cleanedValue
      if '.' ∈ integerPart then
        let thousandsGroups := splitOnChar '.' integerPart
        if 3 < (thousandsGroups.headD []).length then
          { isValid := false, message := some "Formato de milhar inválido." }
        else if !checkThousandGroups thousandsGroups.tail then
          { isValid := false, message := some "Grupos de milhar devem ter 3 dígitos." }
        else { isValid := true, message := none }
      else { isValid := true, message := none }

/-- The syntactic components of a decimal literal recognised by
ECMAScript `parseFloat`. -/
structure FloatParts where
  negative : Bool
  intVal : Nat
  fracVal : Nat
  fracLen : Nat
  expVal : Int
deriving DecidableEq

/-- Model of ECMAScript `parseFloat`, syntactic phase: skip leading
whitespace, optional sign, then the longest decimal-literal prefix
(digits, optional fraction, optional exponent); `none` models `NaN`
(no digit found).  The non-finite literal `Infinity` is outside this
rational-valued model. -/
def parseFloatParts (l : List Char) : Option FloatParts :=
  let l1 := l.dropWhile Char.isWhitespace
  let signAndRest : Bool × List Char :=
    match l1 with
    | '-' :: r => (true, r)
    | '+' :: r => (false, r)
    | r => (false, r)
  let neg := signAndRest.1
  let l2 := signAndRest.2
  let intPart := l2.takeWhile Char.isDigit
  let r1 := l2.dropWhile Char.isDigit
  let fracAndRest : List Char × List Char :=
    match r1 with
    | '.' :: r => (r.takeWhile Char.isDigit, r.dropWhile Char.isDigit)
    | r => ([], r)
  let fracPart := fracAndRest.1
  let r2 := fracAndRest.2
  if intPart.isEmpty && fracPart.isEmpty then none
  else
    let expo : Int :=
      match r2 with
      | 'e' :: r | 'E' :: r =>
        match r with
        | '-' :: d => if (d.takeWhile Char.isDigit).isEmpty then 0
                      else -(digitsToNat (d.takeWhile Char.isDigit) : Int)
        | '+' :: d => if (d.takeWhile Char.isDigit).isEmpty then 0
                      else (digitsToNat (d.takeWhile Char.isDigit) : Int)
        | d => if (d.takeWhile Char.isDigit).isEmpty then 0
               else (digitsToNat (d.takeWhile Char.isDigit) : Int)
      | _ => 0
    some { negative := neg, intVal := digitsToNat intPart,
           fracVal := digitsToNat fracPart, fracLen := fracPart.length,
           expVal := expo }

/-- The numeric value denoted by a recognised decimal literal. -/
def floatPartsToRat (p : FloatParts) : ℚ :=
  (if p.negative then (-1 : ℚ) else 1) *
    ((p.intVal : ℚ) + (p.fracVal : ℚ) / (10 : ℚ) ^ p.fracLen) *
    (10 : ℚ) ^ p.expVal

/-- Model of ECMAScript `parseFloat` (see `parseFloatParts`). -/
def parseFloatQ (l : List Char) : Option ℚ :=
  (parseFloatParts l).map floatPartsToRat

/-- `value.replace(/\./g, '')` of `parseCurrency`. -/
def stripDots (l : List Char) : List Char := l.filter (fun c => c ≠ '.')

/-- `value.replace(',', '.')` of `parseCurrency` (first occurrence only,
as JS `replace` with a string pattern). -/
def replaceFirstComma : List Char → List Char
  | [] => []
  | c :: cs => if c = ',' then '.' :: cs else c :: replaceFirstComma cs

/-- Embeds `parseCurrency` from src/utils/currencyUtils.ts. -/
def parseCurrency (s : String) : ℚ :=
  if s = "" then 0
  else
    match parseFloatQ (replaceFirstComma (stripDots s.data)) with
    | none => 0
    | some q => q

/-- The claim's grouping condition on a currency string, exactly as
stated: the integer part, split on dot, has a leftmost group that is not
1 to 3 digits long, or some subsequent group that is not exactly 3
digits. -/
def claimGroupingViolation (s : String) : Prop :=
  ¬(1 ≤ ((splitOnChar '.' (integerPartOf s.data)).headD []).length ∧
      ((splitOnChar '.' (integerPartOf s.data)).headD []).length ≤ 3) ∨
    ∃ g ∈ (splitOnChar '.' (integerPartOf s.data)).tail, g.length ≠ 3

/-! ### CNPJ validator / formatter (src/utils/cnpjUtils.ts) -/

structure CNPJValidationResult where
  isValid : Bool
  message : Option String
deriving DecidableEq

/-- `cnpj.replace(/[^\d]/g, '')`: keep only digit characters. -/
def cnpjClean (s : String) : List Char :=
  s.data.filter Char.isDigit

/-- The regex `^(\d)\1+$` on an all-digit string: at least two characters,
all equal to the first. -/
def allSameDigits : List Char → Bool
  | [] => false
  | [_] => false
  | c :: rest => rest.all (fun d => d = c)

/-- The check-digit summation loop of `validateCNPJ`: left-to-right over
the digit list, with the running weight `pos` post-decremented and reset
to 9 whenever it would drop below 2. -/
def cnpjSum : List Nat → Nat → Nat
  | [], _ => 0
  | d :: ds, pos => d * pos + cnpjSum ds (if pos - 1 < 2 then 9 else pos - 1)

/-- `sum % 11 < 2 ? 0 : 11 - (sum % 11)` with the loop started at
`pos = size - 7` as in the source. -/
def cnpjCheckDigit (ds : List Nat) : Nat :=
  let s := cnpjSum ds (ds.length - 7)
  if s % 11 < 2 then 0 else 11 - s % 11

/-- The digit values of the cleaned CNPJ string. -/
def cnpjDigits (s : String) : List Nat :=
  (cnpjClean s).map (fun c => c.toNat - 48)

/-- The body of `validateCNPJ` after the empty-input early return; it
depends on the input only through its cleaned digit string. -/
def validateCNPJClean (clean : List Char) : CNPJValidationResult :=
  if clean.length ≠ 14 then
    { isValid := false, message := some "O CNPJ deve ter 14 números." }
  else if allSameDigits clean then
    { isValid := false, message := some "CNPJ inválido (dígitos repetidos)." }
  else if cnpjCheckDigit ((clean.map (fun c => c.toNat - 48)).take 12) ≠
      (clean.map (fun c => c.toNat - 48)).getD 12 0 then
    { isValid := false, message := some "CNPJ inválido. Verifique os números." }
  else if cnpjCheckDigit ((clean.map (fun c => c.toNat - 48)).take 13) ≠
      (clean.map (fun c => c.toNat - 48)).getD 13 0 then
    { isValid := false, message := some "CNPJ inválido. Verifique os números." }
  else { isValid := true, message := none }

/-- Embeds `validateCNPJ` from src/utils/cnpjUtils.ts. -/
def validateCNPJ (s : String) : CNPJValidationResult :=
  if s = "" then { isValid := true, message := none }
  else validateCNPJClean (cnpjClean s)

/-- The spec's description of the modulus-11 weighting: weights applied
right-to-left starting at 2 and cycling through 2..9. -/
def specCheckSum (ds : List Nat) : Nat :=
  (ds.reverse.enum.map (fun p => (2 + p.1 % 8) * p.2)).sum

/-- The spec's description of a CNPJ check digit: 0 when the weighted sum
mod 11 is below 2, and 11 minus that remainder otherwise. -/
def specCheckDigit (ds : List Nat) : Nat :=
  if specCheckSum ds % 11 < 2 then 0 else 11 - specCheckSum ds % 11

/-- The claim's validity condition for a non-empty CNPJ input: stripped
to digits it has exactly 14 of them, is not a single digit repeated 14
times, and both check digits match the weighted checksums over the first
12 and first 13 digits respectively. -/
def cnpjClaimValid (s : String) : Prop :=
  (cnpjClean s).length = 14 ∧
  (¬∃ c : Char, cnpjClean s = List.replicate 14 c) ∧
  specCheckDigit ((cnpjDigits s).take 12) = (cnpjDigits s).getD 12 0 ∧
  specCheckDigit ((cnpjDigits s).take 13) = (cnpjDigits s).getD 13 0

/-- `.replace(/^(\d{2})(\d)/, '$1.$2')` on the digits-only string. -/
def fmtStep1 : List Char → List Char
  | a :: b :: c :: rest =>
    if a.isDigit && b.isDigit && c.isDigit then a :: b :: '.' :: c :: rest
    else a :: b :: c :: rest
  | l => l

/-- `.replace(/^(\d{2})\.(\d{3})(\d)/, '$1.$2.$3')`. -/
def fmtStep2 : List Char → List Char
  | a :: b :: dot :: c :: d :: e :: f :: rest =>
    if a.isDigit && b.isDigit && dot = '.' && c.isDigit && d.isDigit && e.isDigit && f.isDigit
    then a :: b :: '.' :: c :: d :: e :: '.' :: f :: rest
    else a :: b :: dot :: c :: d :: e :: f :: rest
  | l => l

/-- `.replace(/\.(\d{3})(\d)/, '.$1/$2')`: first match only, scanning
left to right. -/
def fmtStep3 : List Char → List Char
  | x :: a :: b :: c :: d :: rest =>
    if x = '.' && a.isDigit && b.isDigit && c.isDigit && d.isDigit
    then '.' :: a :: b :: c :: '/' :: d :: rest
    else x :: fmtStep3 (a :: b :: c :: d :: rest)
  | x :: xs => x :: fmtStep3 xs
  | [] => []

/-- `.replace(/(\d{4})(\d)/, '$1-$2')`: first match only. -/
def fmtStep4 : List Char → List Char
  | a :: b :: c :: d :: e :: rest =>
    if a.isDigit && b.isDigit && c.isDigit && d.isDigit && e.isDigit
    then a :: b :: c :: d :: '-' :: e :: rest
    else a :: fmtStep4 (b :: c :: d :: e :: rest)
  | x :: xs => x :: fmtStep4 xs
  | [] => []

/-- Embeds `formatCNPJForDisplay` from src/utils/cnpjUtils.ts: strip
non-digits, apply the four punctuation-inserting replacements, then
`.slice(0, 18)`. -/
def formatCNPJForDisplay (s : String) : String :=
  String.mk ((fmtStep4 (fmtStep3 (fmtStep2 (fmtStep1 (s.data.filter Char.isDigit))))).take 18)

/-! ### Date validator (src/utils/dateUtils.ts) -/

structure DateValidationResult where
  isValid : Bool
  message : Option String
deriving DecidableEq

/-- The regex `^\d{4}-\d{2}-\d{2}$`. -/
def matchesDatePattern (l : List Char) : Bool :=
  match l with
  | [y1, y2, y3, y4, h1, m1, m2, h2, d1, d2] =>
    y1.isDigit && y2.isDigit && y3.isDigit && y4.isDigit && h1 = '-' &&
    m1.isDigit && m2.isDigit && h2 = '-' && d1.isDigit && d2.isDigit
  | _ => false

/-- `dateString.split('-').map(Number)`: the numeric year, month and day
components. -/
def parseDateParts (l : List Char) : Nat × Nat × Nat :=
  let parts := splitOnChar '-' l
  (digitsToNat (parts.getD 0 []), digitsToNat (parts.getD 1 []), digitsToNat (parts.getD 2 []))

/-- The Gregorian leap-year rule, as ECMAScript `Date` applies it. -/
def isLeapYear (y : Nat) : Bool :=
  (y % 4 == 0 && y % 100 != 0) || y % 400 == 0

/-- Month lengths of the proleptic Gregorian calendar. -/
def jsDaysInMonth (y m : Nat) : Nat :=
  match m with
  | 1 => 31
  | 2 => if isLeapYear y then 29 else 28
  | 3 => 31
  | 4 => 30
  | 5 => 31
  | 6 => 30
  | 7 => 31
  | 8 => 31
  | 9 => 30
  | 10 => 31
  | 11 => 30
  | 12 => 31
  | _ => 0

/-- Modelled from the spec: the source constructs
`new Date(dateString + 'T00:00:00Z')` and round-trips
`getUTCFullYear`/`getUTCMonth`/`getUTCDate` against the parsed
components.  Per ECMAScript, parsing an ISO string whose month is outside
1..12 or whose day exceeds the month's length yields an Invalid Date
(`NaN`), and on any valid ISO date the UTC accessors return exactly the
written components; the combined test therefore succeeds iff the
components form a real proleptic Gregorian date. -/
def jsUTCDateRoundTrips (y m d : Nat) : Bool :=
  1 ≤ m && m ≤ 12 && 1 ≤ d && d ≤ jsDaysInMonth y m

/-- Embeds `validateDate` from src/utils/dateUtils.ts. -/
def validateDate (s : String) : DateValidationResult :=
  if s = "" then { isValid := false, message := some "A data não pode estar em branco." }
  else if !matchesDatePattern s.data then
    { isValid := false, message := some "Formato inválido. Use AAAA-MM-DD." }
  else
    let p := parseDateParts s.data
    if !jsUTCDateRoundTrips p.1 p.2.1 p.2.2 then
      { isValid := false, message := some "Data inválida (ex: dia 31 em um mês com 30 dias)." }
    else { isValid := true, message := none }

/-- The claim's notion of a real proleptic Gregorian calendar date,
stated independently: the month is one of the twelve, and the day lies
between 1 and that month's length, February having 29 days exactly in
leap years (divisible by 4 and not by 100, or divisible by 400). -/
def realGregorianDate (y m d : Nat) : Prop :=
  1 ≤ m ∧ m ≤ 12 ∧ 1 ≤ d ∧
    d ≤ (if m = 2 then (if (y % 4 = 0 ∧ y % 100 ≠ 0) ∨ y % 400 = 0 then 29 else 28)
         else if m = 4 ∨ m = 6 ∨ m = 9 ∨ m = 11 then 30 else 31)

/-! ### Ledger recomputation engine (src/App.tsx) -/

/-- The `Transaction` interface of src/services/geminiService.ts with
`balance` numeric (the source's `number | string` union is numeric in all
code paths that store it) and ids modelled as naturals. -/
structure Transaction where
  id : Nat
  date : String
  description : String
  debit : String
  credit : String
  balance : ℚ
  companyName : String
  cnpj : String
  category : String
  isUnusual : Bool
  unusualReason : String
deriving DecidableEq

/-- A raw extracted row: `Omit<Transaction, 'id' | 'balance'>`. -/
structure RawTransaction where
  date : String
  description : String
  debit : String
  credit : String
  companyName : String
  cnpj : String
  category : String
  isUnusual : Bool
  unusualReason : String
deriving DecidableEq

/-- The mapping loop of `calculateBalances` (App.tsx 69-80):
`runningBalance += parseCurrency(credit) - parseCurrency(debit)`, each
row receiving the running balance and a fresh id (`crypto.randomUUID()`
modelled as consecutive naturals — the claims do not depend on id
values, only on their uniqueness within one ingestion). -/
def calculateBalancesAux (nextId : Nat) (runningBalance : ℚ) :
    List RawTransaction → List Transaction
  | [] => []
  | t :: ts =>
    let b := runningBalance + parseCurrency t.credit - parseCurrency t.debit
    { id := nextId, date := t.date, description := t.description, debit := t.debit,
      credit := t.credit, balance := b, companyName := t.companyName, cnpj := t.cnpj,
      category := t.category, isUnusual := t.isUnusual, unusualReason := t.unusualReason } ::
      calculateBalancesAux (nextId + 1) b ts

/-- Embeds `calculateBalances`: accumulator starts at 0. -/
def calculateBalances (ts : List RawTransaction) : List Transaction :=
  calculateBalancesAux 0 0 ts

/-- The balance-recomputation loop inside `handleDataChange`
(App.tsx 239-243): identical fold, keeping ids. -/
def recomputeBalancesAux (runningBalance : ℚ) : List Transaction → List Transaction
  | [] => []
  | t :: ts =>
    let b := runningBalance + parseCurrency t.credit - parseCurrency t.debit
    { t with balance := b } :: recomputeBalancesAux b ts

/-- The `setTransactions` updater of `handleDataChange` (App.tsx
234-244): replace the row with the matching id, then recompute the whole
balance sequence from 0. -/
def handleDataChangeBalances (updated : Transaction) (ts : List Transaction) :
    List Transaction :=
  recomputeBalancesAux 0 (ts.map (fun t => if t.id = updated.id then updated else t))

/-- The claimed balance invariant: each record's balance equals the
previous record's balance plus parsed credit minus parsed debit, with the
balance before the first record being the accumulator `prev`. -/
def balancesConsistent (prev : ℚ) : List Transaction → Prop
  | [] => True
  | t :: ts =>
    t.balance = prev + parseCurrency t.credit - parseCurrency t.debit ∧
      balancesConsistent t.balance ts

/-- The spec's worked example: credit/debit pairs (0,100), (50,0),
(0,25) — stored as Brazilian-format strings as the source does. -/
def exampleRows : List RawTransaction :=
  [ { date := "2024-01-01", description := "first", debit := "", credit := "100",
      companyName := "", cnpj := "", category := "", isUnusual := false, unusualReason := "" },
    { date := "2024-01-02", description := "second", debit := "50", credit := "",
      companyName := "", cnpj := "", category := "", isUnusual := false, unusualReason := "" },
    { date := "2024-01-03", description := "third", debit := "", credit := "25",
      companyName := "", cnpj := "", category := "", isUnusual := false, unusualReason := "" } ]

/-- The spec's worked edit: row 2 (id 1 after ingestion) with its debit
changed from 50 to 0. -/
def exampleEdit : Transaction :=
  { id := 1, date := "2024-01-02", description := "second", debit := "0", credit := "",
    balance := 50, companyName := "", cnpj := "", category := "", isUnusual := false,
    unusualReason := "" }

/-- `transactions[transactions.length - 1].balance` of the mismatch
`useMemo` (App.tsx 173-180); 0 for the empty list (that case is guarded
in the source). -/
def lastBalance (ts : List Transaction) : ℚ :=
  match ts.getLast? with
  | some t => t.balance
  | none => 0

/-- Embeds the `balanceMismatch` derivation (App.tsx 173-180):
`false` when there are no rows, otherwise
`statementBalance !== null && abs(final - statementBalance) > 0.01`. -/
def balanceMismatch (ts : List Transaction) (statementBalance : Option ℚ) : Bool :=
  if ts.length = 0 then false
  else
    match statementBalance with
    | none => false
    | some b => decide ((1 : ℚ)/100 < |lastBalance ts - b|)

/-! ### Filter evaluator (src/App.tsx 186-231) -/

inductive UnusualFilter
  | all
  | unusualOnly
  | commonOnly
deriving DecidableEq

inductive TransactionTypeFilter
  | all
  | debit
  | credit
deriving DecidableEq

/-- The `Filters` interface of src/services/geminiService.ts. -/
structure Filters where
  description : String
  startDate : String
  endDate : String
  minAmount : String
  maxAmount : String
  category : String
  showUnusual : UnusualFilter
  transactionType : TransactionTypeFilter
deriving DecidableEq

/-- Model of JS `String.prototype.toLowerCase` (ASCII case folding). -/
def lowerList (l : List Char) : List Char := l.map Char.toLower

/-- Does the second list begin with the first? -/
def beginsWith : List Char → List Char → Bool
  | [], _ => true
  | _ :: _, [] => false
  | a :: as, b :: bs => a = b && beginsWith as bs

/-- Model of JS `String.prototype.includes`: the needle occurs as a
contiguous substring of the haystack. -/
def includesList : List Char → List Char → Bool
  | [], needle => beginsWith needle []
  | h :: t, needle => beginsWith needle (h :: t) || includesList t needle

/-- Model of the JS `<` comparison on strings: lexicographic by code
unit. -/
def lexLt : List Char → List Char → Bool
  | [], [] => false
  | [], _ :: _ => true
  | _ :: _, [] => false
  | a :: as, b :: bs =>
    if a.toNat < b.toNat then true
    else if b.toNat < a.toNat then false
    else lexLt as bs

/-- Lexicographic ≤ on strings, stated independently for the spec side. -/
def lexLe : List Char → List Char → Bool
  | [], _ => true
  | _ :: _, [] => false
  | a :: as, b :: bs => a.toNat < b.toNat || (a.toNat = b.toNat && lexLe as bs)

/-- `Math.abs(credit - debit)` of the amount criterion. -/
def amountOf (t : Transaction) : ℚ :=
  |parseCurrency t.credit - parseCurrency t.debit|

/-- The row predicate of `filteredTransactions` (App.tsx 186-231),
translated clause by clause: each active criterion that fails causes an
early `return false`; `parseFloat` of an unparseable bound compares as
`NaN`, i.e. never excludes. -/
def filterPred (fs : Filters) (t : Transaction) : Bool :=
  if fs.description ≠ "" ∧
      includesList (lowerList t.description.data) (lowerList fs.description.data) = false then
    false
  else if fs.category ≠ "" ∧ t.category ≠ fs.category then false
  else if fs.showUnusual = UnusualFilter.unusualOnly ∧ t.isUnusual = false then false
  else if fs.showUnusual = UnusualFilter.commonOnly ∧ t.isUnusual = true then false
  else if fs.startDate ≠ "" ∧ lexLt t.date.data fs.startDate.data = true then false
  else if fs.endDate ≠ "" ∧ lexLt fs.endDate.data t.date.data = true then false
  else if fs.minAmount ≠ "" ∧
      (match parseFloatQ fs.minAmount.data with
       | none => false
       | some q => decide (amountOf t < q)) = true then false
  else if fs.maxAmount ≠ "" ∧
      (match parseFloatQ fs.maxAmount.data with
       | none => false
       | some q => decide (q < amountOf t)) = true then false
  else if fs.transactionType = TransactionTypeFilter.debit ∧ parseCurrency t.debit ≤ 0 then
    false
  else if fs.transactionType = TransactionTypeFilter.credit ∧ parseCurrency t.credit ≤ 0 then
    false
  else true

/-- Embeds `filteredTransactions`. -/
def filteredTransactions (fs : Filters) (ts : List Transaction) : List Transaction :=
  ts.filter (filterPred fs)

/-- The claim's conjunction of criteria: a row passes when every active
criterion holds, unset criteria imposing no constraint, bounds
inclusive. -/
def passesFilters (fs : Filters) (t : Transaction) : Prop :=
  (fs.description = "" ∨
    includesList (lowerList t.description.data) (lowerList fs.description.data) = true) ∧
  (fs.category = "" ∨ t.category = fs.category) ∧
  (match fs.showUnusual with
   | UnusualFilter.all => True
   | UnusualFilter.unusualOnly => t.isUnusual = true
   | UnusualFilter.commonOnly => t.isUnusual = false) ∧
  (fs.startDate = "" ∨ lexLe fs.startDate.data t.date.data = true) ∧
  (fs.endDate = "" ∨ lexLe t.date.data fs.endDate.data = true) ∧
  (fs.minAmount = "" ∨ ∀ q, parseFloatQ fs.minAmount.data = some q → q ≤ amountOf t) ∧
  (fs.maxAmount = "" ∨ ∀ q, parseFloatQ fs.maxAmount.data = some q → amountOf t ≤ q) ∧
  (match fs.transactionType with
   | TransactionTypeFilter.all => True
   | TransactionTypeFilter.debit => 0 < parseCurrency t.debit
   | TransactionTypeFilter.credit => 0 < parseCurrency t.credit)

/-! ### Date-suggestion race (src/App.tsx 248-262) -/

structure DateError where
  message : String
  suggestion : Option String
deriving DecidableEq

/-- An outstanding `suggestDateCorrection` call, remembering the date it
was issued for. -/
structure SuggestionRequest where
  rowId : Nat
  requestedDate : String
deriving DecidableEq

/-- The date-relevant engine state: row dates, the date-error side table
keyed by row id, and outstanding suggestion requests. -/
structure EngineState where
  dates : List (Nat × String)
  dateErrors : List (Nat × DateError)
  pending : List SuggestionRequest
deriving DecidableEq

def lookupAssoc {α : Type} (l : List (Nat × α)) (k : Nat) : Option α :=
  (l.find? (fun p => p.1 == k)).map Prod.snd

def removeAssoc {α : Type} (l : List (Nat × α)) (k : Nat) : List (Nat × α) :=
  l.filter (fun p => p.1 != k)

def setAssoc {α : Type} (l : List (Nat × α)) (k : Nat) (v : α) : List (Nat × α) :=
  removeAssoc l k ++ [(k, v)]

/-- Models one date edit through `handleDataChange` (App.tsx 248-262):
the row's date is replaced, the row's date error is deleted, and if the
new date fails validation a suggestion request for it is issued (the
`await suggestDateCorrection(date)`, whose later completion is
`resolveSuggestion`). -/
def editDate (st : EngineState) (id : Nat) (newDate : String) : EngineState :=
  let dates := setAssoc st.dates id newDate
  let errs := removeAssoc st.dateErrors id
  if (validateDate newDate).isValid then
    { dates := dates, dateErrors := errs, pending := st.pending }
  else
    { dates := dates, dateErrors := errs,
      pending := st.pending ++ [{ rowId := id, requestedDate := newDate }] }

/-- Models the completion of an outstanding `suggestDateCorrection` call
with answer `sugg` (App.tsx 254-261): the error entry for the row is
written unconditionally, with the validation message of the date captured
at request time; the suggestion is kept only if it differs from that
captured date and itself validates.  The source performs no comparison
against the row's current date. -/
def resolveSuggestion (st : EngineState) (req : SuggestionRequest) (sugg : String) :
    EngineState :=
  if req ∈ st.pending then
    { dates := st.dates,
      dateErrors := setAssoc st.dateErrors req.rowId
        { message := ((validateDate req.requestedDate).message).getD "",
          suggestion :=
            if sugg ≠ req.requestedDate ∧ (validateDate sugg).isValid = true then some sugg
            else none },
      pending := st.pending.erase req }
  else st

/-- The race trace: a row whose date is edited to the invalid
`"2023-02-30"` (issuing a suggestion request), then edited again to the
valid `"2024-02-29"` before the suggestion arrives. -/
def raceState0 : EngineState :=
  { dates := [(0, "2024-01-15")], dateErrors := [], pending := [] }

def raceState1 : EngineState := editDate raceState0 0 "2023-02-30"

def raceState2 : EngineState := editDate raceState1 0 "2024-02-29"

/-- The stale suggestion for the superseded edit finally arrives. -/
def raceState3 : EngineState :=
  resolveSuggestion raceState2 { rowId := 0, requestedDate := "2023-02-30" } "2023-03-02"

/-! ### Helper lemmas -/

lemma string_eq_empty_iff (s : String) : s = "" ↔ s.data = [] := by
  cases s with
  | mk l =>
    constructor
    · intro h
      rw [h]
    · intro h
      rw [show l = [] from h]

lemma allowed_not_ws (c : Char) (h : allowedCurrencyChar c = true) :
    c.isWhitespace = false := by
  cases hw : c.isWhitespace with
  | false => rfl
  | true =>
    exfalso
    simp only [allowedCurrencyChar, Bool.or_eq_true, beq_iff_eq, or_assoc] at h
    simp only [Char.isWhitespace, Bool.or_eq_true, decide_eq_true_eq, or_assoc] at hw
    rcases hw with rfl | rfl | rfl | rfl <;>
      rcases h with h | h | h <;> exact absurd h (by decide)

lemma dropWhile_ws_eq (l : List Char) (h : ∀ c ∈ l, c.isWhitespace = false) :
    l.dropWhile Char.isWhitespace = l := by
  cases l with
  | nil => rfl
  | cons a t => simp [List.dropWhile_cons, h a (by simp)]

lemma trimList_eq_self (l : List Char) (h : ∀ c ∈ l, c.isWhitespace = false) :
    trimList l = l := by
  unfold trimList
  rw [dropWhile_ws_eq l h]
  rw [dropWhile_ws_eq l.reverse (fun c hc => h c (List.mem_reverse.mp hc))]
  exact List.reverse_reverse l

lemma splitOnChar_of_not_mem (sep : Char) (l : List Char) (h : sep ∉ l) :
    splitOnChar sep l = [l] := by
  induction l with
  | nil => rfl
  | cons c cs ih =>
    have hc : ¬(c = sep) := by
      rintro rfl
      exact h (by simp)
    have hcs : sep ∉ cs := fun hm => h (by simp [hm])
    simp [splitOnChar, hc, ih hcs]

lemma checkThousandGroups_eq_true (gs : List (List Char)) :
    checkThousandGroups gs = true ↔ ∀ g ∈ gs, g.length = 3 := by
  induction gs with
  | nil => simp [checkThousandGroups]
  | cons g t ih => simp [checkThousandGroups, ih]

lemma isLeapYear_iff (y : Nat) :
    isLeapYear y = true ↔ ((y % 4 = 0 ∧ y % 100 ≠ 0) ∨ y % 400 = 0) := by
  simp [isLeapYear]

lemma jsDaysInMonth_eq (y m : Nat) (h1 : 1 ≤ m) (h2 : m ≤ 12) :
    jsDaysInMonth y m =
      (if m = 2 then (if (y % 4 = 0 ∧ y % 100 ≠ 0) ∨ y % 400 = 0 then 29 else 28)
       else if m = 4 ∨ m = 6 ∨ m = 9 ∨ m = 11 then 30 else 31) := by
  interval_cases m <;> simp [jsDaysInMonth, isLeapYear_iff]

lemma jsRoundTrips_iff_real (y m d : Nat) :
    jsUTCDateRoundTrips y m d = true ↔ realGregorianDate y m d := by
  unfold jsUTCDateRoundTrips realGregorianDate
  simp only [Bool.and_eq_true, decide_eq_true_eq]
  constructor
  · rintro ⟨⟨⟨h1, h2⟩, h3⟩, h4⟩
    rw [jsDaysInMonth_eq y m h1 h2] at h4
    exact ⟨h1, h2, h3, h4⟩
  · rintro ⟨h1, h2, h3, h4⟩
    rw [← jsDaysInMonth_eq y m h1 h2] at h4
    exact ⟨⟨⟨h1, h2⟩, h3⟩, h4⟩

lemma cnpjSum_spec_12 (d1 d2 d3 d4 d5 d6 d7 d8 d9 d10 d11 d12 : Nat) :
    cnpjSum [d1,d2,d3,d4,d5,d6,d7,d8,d9,d10,d11,d12] 5 =
      specCheckSum [d1,d2,d3,d4,d5,d6,d7,d8,d9,d10,d11,d12] := by
  simp [cnpjSum, specCheckSum, List.enum, List.enumFrom]
  ring

lemma cnpjSum_spec_13 (d1 d2 d3 d4 d5 d6 d7 d8 d9 d10 d11 d12 d13 : Nat) :
    cnpjSum [d1,d2,d3,d4,d5,d6,d7,d8,d9,d10,d11,d12,d13] 6 =
      specCheckSum [d1,d2,d3,d4,d5,d6,d7,d8,d9,d10,d11,d12,d13] := by
  simp [cnpjSum, specCheckSum, List.enum, List.enumFrom]
  ring

lemma cnpjCheckDigit_spec_12 (d1 d2 d3 d4 d5 d6 d7 d8 d9 d10 d11 d12 : Nat) :
    cnpjCheckDigit [d1,d2,d3,d4,d5,d6,d7,d8,d9,d10,d11,d12] =
      specCheckDigit [d1,d2,d3,d4,d5,d6,d7,d8,d9,d10,d11,d12] := by
  unfold cnpjCheckDigit specCheckDigit
  rw [show ([d1,d2,d3,d4,d5,d6,d7,d8,d9,d10,d11,d12] : List Nat).length - 7 = 5 from rfl,
    cnpjSum_spec_12]

lemma cnpjCheckDigit_spec_13 (d1 d2 d3 d4 d5 d6 d7 d8 d9 d10 d11 d12 d13 : Nat) :
    cnpjCheckDigit [d1,d2,d3,d4,d5,d6,d7,d8,d9,d10,d11,d12,d13] =
      specCheckDigit [d1,d2,d3,d4,d5,d6,d7,d8,d9,d10,d11,d12,d13] := by
  unfold cnpjCheckDigit specCheckDigit
  rw [show ([d1,d2,d3,d4,d5,d6,d7,d8,d9,d10,d11,d12,d13] : List Nat).length - 7 = 6 from rfl,
    cnpjSum_spec_13]

lemma allSameDigits_iff (l : List Char) (h : l.length = 14) :
    allSameDigits l = true ↔ ∃ c, l = List.replicate 14 c := by
  rcases l with _ | ⟨c, _ | ⟨d, rest⟩⟩
  · simp at h
  · simp at h
  · constructor
    · intro hall
      simp only [allSameDigits, List.all_cons, List.all_eq_true, Bool.and_eq_true,
        decide_eq_true_eq] at hall
      refine ⟨c, ?_⟩
      rw [List.eq_replicate_iff]
      refine ⟨h, ?_⟩
      intro b hb
      rcases List.mem_cons.mp hb with rfl | hb
      · rfl
      · rcases List.mem_cons.mp hb with rfl | hb
        · exact hall.1
        · exact hall.2 b hb
    · rintro ⟨e, he⟩
      obtain ⟨hlen', hmem⟩ := List.eq_replicate_iff.mp he
      have hc : c = e := hmem c (by simp)
      simp only [allSameDigits, List.all_eq_true]
      intro x hx
      have hx' : x = e := hmem x (List.mem_cons_of_mem c hx)
      simp [hx', hc]

lemma validateCNPJClean_isValid (clean : List Char) (h : clean.length = 14) :
    (validateCNPJClean clean).isValid = true ↔
      (allSameDigits clean = false ∧
        cnpjCheckDigit ((clean.map (fun c => c.toNat - 48)).take 12) =
          (clean.map (fun c => c.toNat - 48)).getD 12 0 ∧
        cnpjCheckDigit ((clean.map (fun c => c.toNat - 48)).take 13) =
          (clean.map (fun c => c.toNat - 48)).getD 13 0) := by
  unfold validateCNPJClean
  rw [if_neg (by simp [h])]
  split_ifs with h1 h2 h3 <;> simp_all

lemma fmtStep1_filter (l : List Char) :
    (fmtStep1 l).filter Char.isDigit = l.filter Char.isDigit := by
  unfold fmtStep1
  split
  · split_ifs with h <;> simp_all [List.filter_cons]
  · rfl

lemma fmtStep1_length (l : List Char) : (fmtStep1 l).length ≤ l.length + 1 := by
  unfold fmtStep1
  split
  · split_ifs with h <;> simp
  · simp

lemma fmtStep2_filter (l : List Char) :
    (fmtStep2 l).filter Char.isDigit = l.filter Char.isDigit := by
  unfold fmtStep2
  split
  · split_ifs with h
    · simp only [Bool.and_eq_true, decide_eq_true_eq] at h
      obtain ⟨⟨⟨⟨⟨⟨ha, hb⟩, hdot⟩, hc⟩, hd⟩, he⟩, hf⟩ := h
      subst hdot
      simp [List.filter_cons, ha, hb, hc, hd, he, hf]
    · rfl
  · rfl

lemma fmtStep2_length (l : List Char) : (fmtStep2 l).length ≤ l.length + 1 := by
  unfold fmtStep2
  split
  · split_ifs with h <;> simp
  · simp

lemma fmtStep3_filter (l : List Char) :
    (fmtStep3 l).filter Char.isDigit = l.filter Char.isDigit := by
  induction l using fmtStep3.induct with
  | case1 x a b c d rest h =>
    simp only [Bool.and_eq_true, decide_eq_true_eq] at h
    obtain ⟨⟨⟨⟨hx, ha⟩, hb⟩, hc⟩, hd⟩ := h
    subst hx
    rw [fmtStep3, if_pos (by simp [ha, hb, hc, hd])]
    simp [List.filter_cons, ha, hb, hc, hd]
  | case2 x a b c d rest h ih =>
    rw [fmtStep3, if_neg h]
    simp [List.filter_cons, ih]
  | case3 x xs hne ih =>
    rcases xs with _|⟨a,_|⟨b,_|⟨c,_|⟨d,rest⟩⟩⟩⟩
    · simp [fmtStep3, List.filter_cons]
    · simp only [fmtStep3] at ih ⊢
    · simp only [fmtStep3] at ih ⊢
    · simp only [fmtStep3] at ih ⊢
    · exact (hne a b c d rest rfl).elim
  | case4 => rfl

lemma fmtStep3_length (l : List Char) : (fmtStep3 l).length ≤ l.length + 1 := by
  induction l using fmtStep3.induct with
  | case1 x a b c d rest h =>
    rw [fmtStep3, if_pos h]
    simp
  | case2 x a b c d rest h ih =>
    rw [fmtStep3, if_neg h]
    simp only [List.length_cons] at ih ⊢
    omega
  | case3 x xs hne ih =>
    rcases xs with _|⟨a,_|⟨b,_|⟨c,_|⟨d,rest⟩⟩⟩⟩
    · simp [fmtStep3]
    · simp only [fmtStep3, List.length_cons] at ih ⊢
      omega
    · simp only [fmtStep3, List.length_cons] at ih ⊢
      omega
    · simp only [fmtStep3, List.length_cons] at ih ⊢
      omega
    · exact (hne a b c d rest rfl).elim
  | case4 => simp [fmtStep3]

lemma fmtStep4_filter (l : List Char) :
    (fmtStep4 l).filter Char.isDigit = l.filter Char.isDigit := by
  induction l using fmtStep4.induct with
  | case1 a b c d e rest h =>
    rw [fmtStep4, if_pos h]
    simp only [Bool.and_eq_true] at h
    obtain ⟨⟨⟨⟨ha, hb⟩, hc⟩, hd⟩, he⟩ := h
    simp [List.filter_cons, ha, hb, hc, hd, he]
  | case2 a b c d e rest h ih =>
    rw [fmtStep4, if_neg h]
    simp [List.filter_cons, ih]
  | case3 x xs hne ih =>
    rcases xs with _|⟨a,_|⟨b,_|⟨c,_|⟨d,rest⟩⟩⟩⟩
    · simp [fmtStep4, List.filter_cons]
    · simp only [fmtStep4] at ih ⊢
    · simp only [fmtStep4] at ih ⊢
    · simp only [fmtStep4] at ih ⊢
    · exact (hne a b c d rest rfl).elim
  | case4 => rfl

lemma fmtStep4_length (l : List Char) : (fmtStep4 l).length ≤ l.length + 1 := by
  induction l using fmtStep4.induct with
  | case1 a b c d e rest h =>
    rw [fmtStep4, if_pos h]
    simp
  | case2 a b c d e rest h ih =>
    rw [fmtStep4, if_neg h]
    simp only [List.length_cons] at ih ⊢
    omega
  | case3 x xs hne ih =>
    rcases xs with _|⟨a,_|⟨b,_|⟨c,_|⟨d,rest⟩⟩⟩⟩
    · simp [fmtStep4]
    · simp only [fmtStep4, List.length_cons] at ih ⊢
      omega
    · simp only [fmtStep4, List.length_cons] at ih ⊢
      omega
    · simp only [fmtStep4, List.length_cons] at ih ⊢
      omega
    · exact (hne a b c d rest rfl).elim
  | case4 => simp [fmtStep4]

lemma formatSteps_filter (l : List Char) :
    (fmtStep4 (fmtStep3 (fmtStep2 (fmtStep1 l)))).filter Char.isDigit =
      l.filter Char.isDigit := by
  rw [fmtStep4_filter, fmtStep3_filter, fmtStep2_filter, fmtStep1_filter]

lemma formatSteps_length (l : List Char) :
    (fmtStep4 (fmtStep3 (fmtStep2 (fmtStep1 l)))).length ≤ l.length + 4 := by
  have h1 := fmtStep1_length l
  have h2 := fmtStep2_length (fmtStep1 l)
  have h3 := fmtStep3_length (fmtStep2 (fmtStep1 l))
  have h4 := fmtStep4_length (fmtStep3 (fmtStep2 (fmtStep1 l)))
  omega

lemma calculateBalancesAux_consistent (ts : List RawTransaction) :
    ∀ (nid : Nat) (run : ℚ), balancesConsistent run (calculateBalancesAux nid run ts) := by
  induction ts with
  | nil => intro nid run; trivial
  | cons t ts ih =>
    intro nid run
    exact ⟨rfl, ih _ _⟩

lemma recomputeBalancesAux_consistent (ts : List Transaction) :
    ∀ run : ℚ, balancesConsistent run (recomputeBalancesAux run ts) := by
  induction ts with
  | nil => intro run; trivial
  | cons t ts ih =>
    intro run
    exact ⟨rfl, ih _⟩

lemma parseCurrency_100 : parseCurrency "100" = 100 := by
  have h : parseFloatParts (replaceFirstComma (stripDots "100".data)) =
      some { negative := false, intVal := 100, fracVal := 0, fracLen := 0, expVal := 0 } := by
    decide
  simp [parseCurrency, parseFloatQ, h, floatPartsToRat]

lemma parseCurrency_50 : parseCurrency "50" = 50 := by
  have h : parseFloatParts (replaceFirstComma (stripDots "50".data)) =
      some { negative := false, intVal := 50, fracVal := 0, fracLen := 0, expVal := 0 } := by
    decide
  simp [parseCurrency, parseFloatQ, h, floatPartsToRat]

lemma parseCurrency_25 : parseCurrency "25" = 25 := by
  have h : parseFloatParts (replaceFirstComma (stripDots "25".data)) =
      some { negative := false, intVal := 25, fracVal := 0, fracLen := 0, expVal := 0 } := by
    decide
  simp [parseCurrency, parseFloatQ, h, floatPartsToRat]

lemma parseCurrency_0 : parseCurrency "0" = 0 := by
  have h : parseFloatParts (replaceFirstComma (stripDots "0".data)) =
      some { negative := false, intVal := 0, fracVal := 0, fracLen := 0, expVal := 0 } := by
    decide
  simp [parseCurrency, parseFloatQ, h, floatPartsToRat]

lemma parseCurrency_empty : parseCurrency "" = 0 := rfl

lemma exampleIngest_balances :
    (calculateBalances exampleRows).map Transaction.balance = [100, 50, 75] := by
  simp [calculateBalances, calculateBalancesAux, exampleRows, parseCurrency_100,
    parseCurrency_50, parseCurrency_25, parseCurrency_empty]
  norm_num

lemma exampleEdit_balances :
    (handleDataChangeBalances exampleEdit (calculateBalances exampleRows)).map
      Transaction.balance = [100, 100, 125] := by
  simp [calculateBalances, calculateBalancesAux, exampleRows, handleDataChangeBalances,
    recomputeBalancesAux, exampleEdit, parseCurrency_100, parseCurrency_50, parseCurrency_25,
    parseCurrency_0, parseCurrency_empty]
  norm_num

lemma exampleEdit_length :
    (handleDataChangeBalances exampleEdit (calculateBalances exampleRows)).length = 3 := by
  have h := congrArg List.length exampleEdit_balances
  simpa using h

lemma exampleEdit_lastBalance :
    lastBalance (handleDataChangeBalances exampleEdit (calculateBalances exampleRows)) = 125 := by
  have h := exampleEdit_balances
  rcases hcl : handleDataChangeBalances exampleEdit (calculateBalances exampleRows) with
    _ | ⟨a, _ | ⟨b, _ | ⟨c, tl⟩⟩⟩ <;> rw [hcl] at h <;> simp at h
  rcases h with ⟨ha, hb, hc, htl⟩
  subst htl
  simp [lastBalance, List.getLast?, hc]

lemma lexLt_eq_not_lexLe (a b : List Char) : lexLt a b = !lexLe b a := by
  induction a generalizing b with
  | nil => cases b <;> simp [lexLt, lexLe]
  | cons x xs ih =>
    cases b with
    | nil => simp [lexLt, lexLe]
    | cons y ys =>
      simp only [lexLt, lexLe, ih ys]
      rcases Nat.lt_trichotomy x.toNat y.toNat with h | h | h
      · have h1 : ¬(y.toNat < x.toNat) := by omega
        have h2 : ¬(y.toNat = x.toNat) := by omega
        simp [h, h1, h2]
      · have h1 : ¬(x.toNat < y.toNat) := by omega
        have h2 : ¬(y.toNat < x.toNat) := by omega
        simp [h1, h2, h.symm, ih]
      · have h1 : ¬(x.toNat < y.toNat) := by omega
        have h2 : ¬(y.toNat = x.toNat) := by omega
        simp [h, h1, h2]

lemma ite_false_chain {c : Prop} [Decidable c] {r : Bool} :
    (if c then false else r) = true ↔ ¬c ∧ r = true := by
  split_ifs with h <;> simp [h]

lemma filterPred_iff (fs : Filters) (t : Transaction) :
    filterPred fs t = true ↔ passesFilters fs t := by
  unfold filterPred passesFilters
  simp only [ite_false_chain]
  constructor
  · rintro ⟨n1, n2, n3, n4, n5, n6, n7, n8, n9, n10, -⟩
    refine ⟨?_, ?_, ?_, ?_, ?_, ?_, ?_, ?_⟩
    · by_cases hd : fs.description = ""
      · exact Or.inl hd
      · refine Or.inr ?_
        cases hinc : includesList (lowerList t.description.data)
            (lowerList fs.description.data) with
        | true => rfl
        | false => exact absurd ⟨hd, hinc⟩ n1
    · by_cases hc : fs.category = ""
      · exact Or.inl hc
      · refine Or.inr ?_
        by_cases hcc : t.category = fs.category
        · exact hcc
        · exact absurd ⟨hc, hcc⟩ n2
    · cases hsu : fs.showUnusual with
      | all => exact trivial
      | unusualOnly =>
        cases hu : t.isUnusual with
        | true => rfl
        | false => exact absurd ⟨hsu, hu⟩ n3
      | commonOnly =>
        cases hu : t.isUnusual with
        | false => rfl
        | true => exact absurd ⟨hsu, hu⟩ n4
    · by_cases hsd : fs.startDate = ""
      · exact Or.inl hsd
      · refine Or.inr ?_
        cases hle : lexLe fs.startDate.data t.date.data with
        | true => rfl
        | false =>
          have hlt : lexLt t.date.data fs.startDate.data = true := by
            rw [lexLt_eq_not_lexLe, hle]
            rfl
          exact absurd ⟨hsd, hlt⟩ n5
    · by_cases hed : fs.endDate = ""
      · exact Or.inl hed
      · refine Or.inr ?_
        cases hle : lexLe t.date.data fs.endDate.data with
        | true => rfl
        | false =>
          have hlt : lexLt fs.endDate.data t.date.data = true := by
            rw [lexLt_eq_not_lexLe, hle]
            rfl
          exact absurd ⟨hed, hlt⟩ n6
    · by_cases hm : fs.minAmount = ""
      · exact Or.inl hm
      · refine Or.inr ?_
        intro q hq
        by_cases hlt : amountOf t < q
        · exact absurd ⟨hm, by rw [hq]; exact decide_eq_true hlt⟩ n7
        · exact not_lt.mp hlt
    · by_cases hm : fs.maxAmount = ""
      · exact Or.inl hm
      · refine Or.inr ?_
        intro q hq
        by_cases hlt : q < amountOf t
        · exact absurd ⟨hm, by rw [hq]; exact decide_eq_true hlt⟩ n8
        · exact not_lt.mp hlt
    · cases htt : fs.transactionType with
      | all => exact trivial
      | debit =>
        by_cases hle : parseCurrency t.debit ≤ 0
        · exact absurd ⟨htt, hle⟩ n9
        · exact not_le.mp hle
      | credit =>
        by_cases hle : parseCurrency t.credit ≤ 0
        · exact absurd ⟨htt, hle⟩ n10
        · exact not_le.mp hle
  · rintro ⟨p1, p2, p3, p4, p5, p6, p7, p8⟩
    refine ⟨?_, ?_, ?_, ?_, ?_, ?_, ?_, ?_, ?_, ?_, trivial⟩
    · rintro ⟨hd, hinc⟩
      rcases p1 with hp | hp
      · exact hd hp
      · rw [hp] at hinc
        cases hinc
    · rintro ⟨hc, hcc⟩
      rcases p2 with hp | hp
      · exact hc hp
      · exact hcc hp
    · rintro ⟨hsu, hu⟩
      rw [hsu] at p3
      rw [p3] at hu
      cases hu
    · rintro ⟨hsu, hu⟩
      rw [hsu] at p3
      rw [p3] at hu
      cases hu
    · rintro ⟨hsd, hlt⟩
      rcases p4 with hp | hp
      · exact hsd hp
      · rw [lexLt_eq_not_lexLe, hp] at hlt
        cases hlt
    · rintro ⟨hed, hlt⟩
      rcases p5 with hp | hp
      · exact hed hp
      · rw [lexLt_eq_not_lexLe, hp] at hlt
        cases hlt
    · rintro ⟨hm, hmt⟩
      rcases p6 with hp | hp
      · exact hm hp
      · cases hpf : parseFloatQ fs.minAmount.data with
        | none => rw [hpf] at hmt; cases hmt
        | some q =>
          rw [hpf] at hmt
          exact absurd (hp q hpf) (not_le.mpr (of_decide_eq_true hmt))
    · rintro ⟨hm, hmt⟩
      rcases p7 with hp | hp
      · exact hm hp
      · cases hpf : parseFloatQ fs.maxAmount.data with
        | none => rw [hpf] at hmt; cases hmt
        | some q =>
          rw [hpf] at hmt
          exact absurd (hp q hpf) (not_le.mpr (of_decide_eq_true hmt))
    · rintro ⟨htt, hle⟩
      rw [htt] at p8
      exact absurd p8 (not_lt.mpr hle)
    · rintro ⟨htt, hle⟩
      rw [htt] at p8
      exact absurd p8 (not_lt.mpr hle)

lemma cnpjClean_format (s : String) (hcount : (cnpjClean s).length ≤ 14) :
    cnpjClean (formatCNPJForDisplay s) = cnpjClean s := by
  show (formatCNPJForDisplay s).data.filter Char.isDigit = s.data.filter Char.isDigit
  have hlen :
      (fmtStep4 (fmtStep3 (fmtStep2 (fmtStep1 (s.data.filter Char.isDigit))))).length ≤ 18 := by
    have h := formatSteps_length (s.data.filter Char.isDigit)
    have h' : (s.data.filter Char.isDigit).length ≤ 14 := hcount
    omega
  rw [show (formatCNPJForDisplay s).data =
      (fmtStep4 (fmtStep3 (fmtStep2 (fmtStep1 (s.data.filter Char.isDigit))))).take 18 from rfl]
  rw [List.take_of_length_le hlen, formatSteps_filter, List.filter_filter]
  simp

lemma format_empty_iff (s : String) (hcount : (cnpjClean s).length ≤ 14) :
    formatCNPJForDisplay s = "" ↔ cnpjClean s = [] := by
  rw [string_eq_empty_iff]
  constructor
  · intro h
    have hf := cnpjClean_format s hcount
    rw [show cnpjClean (formatCNPJForDisplay s) =
        (formatCNPJForDisplay s).data.filter Char.isDigit from rfl, h] at hf
    exact hf.symm
  · intro h
    show (String.mk _).data = []
    rw [show (s.data.filter Char.isDigit) = [] from h]
    rfl

/-! ### Claim theorems: currency (C5, C6, C10) -/

/-- C6: `parseCurrency` is total and never throws: the empty string maps
to 0, any input that is unparseable after removing all dots and replacing
the comma with a decimal point maps to 0, and `"1.234,56"` maps to
1234.56 (`"abc"` being a concrete unparseable input). -/
theorem parseCurrency_total_fallback :
    parseCurrency "" = 0 ∧
    parseCurrency "abc" = 0 ∧
    parseCurrency "1.234,56" = 1234.56 ∧
    ∀ s : String, parseFloatQ (replaceFirstComma (stripDots s.data)) = none →
      parseCurrency s = 0 := by
  refine ⟨rfl, ?_, ?_, ?_⟩
  · have h : parseFloatParts (replaceFirstComma (stripDots "abc".data)) = none := by decide
    simp [parseCurrency, parseFloatQ, h]
  · have h : parseFloatParts (replaceFirstComma (stripDots "1.234,56".data)) =
        some { negative := false, intVal := 1234, fracVal := 56, fracLen := 2, expVal := 0 } := by
      decide
    simp [parseCurrency, parseFloatQ, h, floatPartsToRat]
    norm_num
  · intro s h
    by_cases hs : s = ""
    · simp [parseCurrency, hs]
    · simp [parseCurrency, hs, h]

/-- Witness for C6 at the concrete unparseable input `"zz"`. -/
theorem parseCurrency_total_fallback_witness :
    parseFloatQ (replaceFirstComma (stripDots ("zz" : String).data)) = none ∧
      parseCurrency "zz" = 0 :=
  ⟨by decide, parseCurrency_total_fallback.2.2.2 "zz" (by decide)⟩

/-- C5, counterexample to the claim as stated: `"1234"` (leftmost group
of 4 digits, no dot) and `".123"` (empty leftmost group) both violate the
claim's grouping condition yet `validateCurrency` accepts them, because
the source only checks grouping when the integer part contains a dot. -/
theorem validateCurrency_grouping_counterexample :
    ((∀ c ∈ ("1234" : String).data, allowedCurrencyChar c = true) ∧
      (("1234" : String).data.filter (fun c => c = ',')).length ≤ 1 ∧
      claimGroupingViolation "1234" ∧ (validateCurrency "1234").isValid = true) ∧
    ((∀ c ∈ (".123" : String).data, allowedCurrencyChar c = true) ∧
      ((".123" : String).data.filter (fun c => c = ',')).length ≤ 1 ∧
      claimGroupingViolation ".123" ∧ (validateCurrency ".123").isValid = true) := by
  unfold claimGroupingViolation
  decide

/-- C5, amended: for every non-empty input of digits, dots and at most
one comma whose integer part contains a dot, `validateCurrency` reports
invalid whenever the leftmost dot-group is longer than 3 digits or some
subsequent dot-group is not exactly 3 digits. -/
theorem validateCurrency_grouping_amended (s : String) (hne : s ≠ "")
    (hchars : ∀ c ∈ s.data, allowedCurrencyChar c = true)
    (hcomma : (s.data.filter (fun c => c = ',')).length ≤ 1)
    (hdot : '.' ∈ integerPartOf s.data)
    (hviol : 3 < ((splitOnChar '.' (integerPartOf s.data)).headD []).length ∨
      ∃ g ∈ (splitOnChar '.' (integerPartOf s.data)).tail, g.length ≠ 3) :
    (validateCurrency s).isValid = false := by
  have hnw : ∀ c ∈ s.data, c.isWhitespace = false := fun c hc => allowed_not_ws c (hchars c hc)
  have htrim : trimList s.data = s.data := trimList_eq_self _ hnw
  have hdne : s.data ≠ [] := fun h => hne ((string_eq_empty_iff s).mpr h)
  rw [validateCurrency]
  rw [if_neg (by push_neg; refine ⟨hne, ?_⟩; rw [htrim]; exact hdne)]
  simp only [htrim]
  split_ifs with h1 h2 h3 h4 h5 <;> try rfl
  rcases hviol with hv | ⟨g, hg, hglen⟩
  · exact h4 hv
  · exact hglen ((checkThousandGroups_eq_true _).mp (by simpa using h5) g hg)

/-- Witness for the amended C5 at `"12.3,45"` (dot-group `"3"` has
length 1). -/
theorem validateCurrency_grouping_amended_witness :
    (validateCurrency "12.3,45").isValid = false :=
  validateCurrency_grouping_amended "12.3,45" (by decide) (by decide) (by decide)
    (by decide) (by decide)

/-- C10: a single comma followed by at most two digits is accepted by
`validateCurrency`: the integer part is empty, so the thousands-grouping
check (which only runs when the integer part contains a dot) is skipped
and every other check passes. -/
theorem validateCurrency_comma_lead (l : List Char) (hlen : l.length ≤ 2)
    (hdig : ∀ c ∈ l, c.isDigit = true) :
    (validateCurrency (String.mk (',' :: l))).isValid = true := by
  have hnw : ∀ c ∈ (',' :: l), c.isWhitespace = false := by
    intro c hc
    rcases List.mem_cons.mp hc with rfl | hc
    · decide
    · exact allowed_not_ws c (by simp [allowedCurrencyChar, hdig c hc])
  have hdata : (String.mk (',' :: l)).data = ',' :: l := rfl
  have htrim : trimList (',' :: l) = ',' :: l := trimList_eq_self _ hnw
  have hsplit : splitOnChar ',' l = [l] :=
    splitOnChar_of_not_mem _ _ (fun hm => absurd (hdig ',' hm) (by decide))
  have hflt : l.filter (fun c => decide (c = ',')) = [] := by
    rw [List.filter_eq_nil_iff]
    intro c hc
    simp only [decide_eq_true_eq]
    rintro rfl
    exact absurd (hdig ',' hc) (by decide)
  have hlt : ¬(2 < l.length) := by omega
  have hall : ∀ x ∈ l, allowedCurrencyChar x = true := fun x hx => by
    simp [allowedCurrencyChar, hdig x hx]
  have hex : ¬∃ x ∈ l, allowedCurrencyChar x = false := by
    rintro ⟨x, hx, hfalse⟩
    rw [hall x hx] at hfalse
    cases hfalse
  simp [validateCurrency, hdata, htrim, hsplit, hflt, hlt, string_eq_empty_iff,
    integerPartOf, splitOnChar, hex, (show allowedCurrencyChar ',' = true by decide)]

/-- Witness for C10 at `",5"`. -/
theorem validateCurrency_comma_lead_witness :
    (validateCurrency (String.mk [',', '5'])).isValid = true :=
  validateCurrency_comma_lead ['5'] (by decide) (by decide)

/-! ### Claim theorems: CNPJ (C3, C9) -/

/-- C3: `validateCNPJ` accepts the empty string; it accepts the known
fixture `"11222333000181"`; and for every non-empty input it accepts
exactly when the digit-stripped form has 14 digits, is not one digit
repeated 14 times, and both check digits equal the modulus-11 weighted
checksums over the first 12 and first 13 digits. -/
theorem validateCNPJ_spec :
    (validateCNPJ "").isValid = true ∧
    (validateCNPJ "11222333000181").isValid = true ∧
    ∀ s : String, s ≠ "" → ((validateCNPJ s).isValid = true ↔ cnpjClaimValid s) := by
  refine ⟨rfl, by decide, ?_⟩
  intro s hne
  rw [validateCNPJ, if_neg hne]
  unfold cnpjClaimValid cnpjDigits
  by_cases hlen : (cnpjClean s).length = 14
  case neg =>
    have h : (validateCNPJClean (cnpjClean s)).isValid = false := by
      unfold validateCNPJClean
      rw [if_pos hlen]
    simp [h, hlen]
  case pos =>
    rw [validateCNPJClean_isValid _ hlen]
    generalize hcl : cnpjClean s = cl at hlen ⊢
    rcases cl with
      _|⟨c1,_|⟨c2,_|⟨c3,_|⟨c4,_|⟨c5,_|⟨c6,_|⟨c7,_|⟨c8,_|⟨c9,_|⟨c10,_|⟨c11,_|⟨c12,_|⟨c13,_|⟨c14,tl⟩⟩⟩⟩⟩⟩⟩⟩⟩⟩⟩⟩⟩⟩ <;>
      simp at hlen
    subst hlen
    have hiff := allSameDigits_iff [c1,c2,c3,c4,c5,c6,c7,c8,c9,c10,c11,c12,c13,c14] (by simp)
    simp only [List.map_cons, List.map_nil, List.take_succ_cons, List.take_zero,
      List.getD_cons_succ, List.getD_cons_zero]
    rw [cnpjCheckDigit_spec_12, cnpjCheckDigit_spec_13]
    constructor
    · rintro ⟨ha, h2, h3⟩
      refine ⟨by simp, ?_, h2, h3⟩
      intro hex
      rw [hiff.mpr hex] at ha
      cases ha
    · rintro ⟨-, hnex, h2, h3⟩
      refine ⟨?_, h2, h3⟩
      cases hall : allSameDigits [c1,c2,c3,c4,c5,c6,c7,c8,c9,c10,c11,c12,c13,c14] with
      | false => rfl
      | true => exact absurd (hiff.mp hall) hnex

/-- Witness for C3 at the known-good fixture. -/
theorem validateCNPJ_spec_witness :
    ((validateCNPJ "11222333000181").isValid = true ↔ cnpjClaimValid "11222333000181") :=
  validateCNPJ_spec.2.2 "11222333000181" (by decide)

/-- C9, counterexample to the claim as stated: `"a"` has at most 14
digits (namely zero), but formatting erases it to `""`, which
`validateCNPJ` accepts, while `validateCNPJ "a"` rejects (non-empty,
stripped length 0 ≠ 14). -/
theorem validateCNPJ_format_counterexample :
    (cnpjClean "a").length ≤ 14 ∧
    (validateCNPJ (formatCNPJForDisplay "a")).isValid = true ∧
    (validateCNPJ "a").isValid = false := by
  decide

/-- C9, amended: for inputs with at most 14 digit characters that are
empty or contain at least one digit, display formatting does not change
the validation result, since it only inserts punctuation around the digit
sequence and validation strips all non-digits. -/
theorem validateCNPJ_format_invariant (s : String)
    (hcount : (cnpjClean s).length ≤ 14)
    (hsome : s = "" ∨ cnpjClean s ≠ []) :
    validateCNPJ (formatCNPJForDisplay s) = validateCNPJ s := by
  rcases hsome with rfl | hd
  · rfl
  · have hne : s ≠ "" := by
      intro h
      subst h
      exact hd rfl
    have hfne : formatCNPJForDisplay s ≠ "" := by
      intro h
      exact hd ((format_empty_iff s hcount).mp h)
    rw [validateCNPJ, validateCNPJ, if_neg hne, if_neg hfne, cnpjClean_format s hcount]

/-- Witness for the amended C9 at the fixture CNPJ. -/
theorem validateCNPJ_format_invariant_witness :
    validateCNPJ (formatCNPJForDisplay "11222333000181") = validateCNPJ "11222333000181" :=
  validateCNPJ_format_invariant "11222333000181" (by decide) (Or.inr (by decide))

/-! ### Claim theorems: dates (C4) -/

/-- C4: `validateDate` rejects the empty string and every string not of
the form `\d{4}-\d{2}-\d{2}`; on pattern-matching strings it accepts
exactly when the components denote a real proleptic Gregorian date (via
the modelled UTC round-trip), so `"2024-02-29"` is valid while
`"2023-02-29"` and `"2023-13-01"` are not. -/
theorem validateDate_spec :
    (validateDate "").isValid = false ∧
    (∀ s : String, matchesDatePattern s.data = false → (validateDate s).isValid = false) ∧
    (∀ s : String, matchesDatePattern s.data = true →
      ((validateDate s).isValid = true ↔
        realGregorianDate (parseDateParts s.data).1 (parseDateParts s.data).2.1
          (parseDateParts s.data).2.2)) ∧
    (validateDate "2024-02-29").isValid = true ∧
    (validateDate "2023-02-29").isValid = false ∧
    (validateDate "2023-13-01").isValid = false := by
  refine ⟨rfl, ?_, ?_, by decide, by decide, by decide⟩
  · intro s h
    by_cases hs : s = ""
    · simp [validateDate, hs]
    · simp [validateDate, hs, h]
  · intro s h
    have hne : s ≠ "" := by
      intro hs
      subst hs
      simp [matchesDatePattern] at h
    rw [validateDate, if_neg hne]
    rw [if_neg (by simp [h])]
    rw [← jsRoundTrips_iff_real]
    by_cases hrt : jsUTCDateRoundTrips (parseDateParts s.data).1 (parseDateParts s.data).2.1
        (parseDateParts s.data).2.2 = true
    · simp [hrt]
    · simp [hrt]

/-- Witness for C4 at the non-matching input `"abc"` and the leap date
`"2024-02-29"`. -/
theorem validateDate_spec_witness :
    ((validateDate "abc").isValid = false) ∧
    ((validateDate "2024-02-29").isValid = true ↔
      realGregorianDate (parseDateParts ("2024-02-29" : String).data).1
        (parseDateParts ("2024-02-29" : String).data).2.1
        (parseDateParts ("2024-02-29" : String).data).2.2) :=
  ⟨validateDate_spec.2.1 "abc" (by decide), validateDate_spec.2.2.1 "2024-02-29" (by decide)⟩

/-! ### Claim theorems: ledger (C1, C2) -/

/-- C1: after ingestion and after every edit the balance sequence is
recomputed left-to-right from 0 and satisfies
`balance i = balance (i-1) + parse(credit i) - parse(debit i)`; on the
example ledger with credit/debit pairs (0,100), (50,0), (0,25) the
balances are [100, 50, 75], and editing row 2's debit from 50 to 0
yields [100, 100, 125]. -/
theorem ledger_balances_invariant :
    (∀ rows : List RawTransaction, balancesConsistent 0 (calculateBalances rows)) ∧
    (∀ (updated : Transaction) (ts : List Transaction),
      balancesConsistent 0 (handleDataChangeBalances updated ts)) ∧
    (calculateBalances exampleRows).map Transaction.balance = [100, 50, 75] ∧
    (handleDataChangeBalances exampleEdit (calculateBalances exampleRows)).map
      Transaction.balance = [100, 100, 125] :=
  ⟨fun rows => calculateBalancesAux_consistent rows 0 0,
   fun _ _ => recomputeBalancesAux_consistent _ 0,
   exampleIngest_balances, exampleEdit_balances⟩

/-- C2: the mismatch flag is true exactly when a declared final balance
is known, the ledger is non-empty, and the last computed balance differs
from the declared balance by more than 0.01; on the example edited ledger
(final balance 125) a declared 125 gives no mismatch and a declared 130
does. -/
theorem balanceMismatch_spec :
    (∀ (ts : List Transaction) (sb : Option ℚ),
      balanceMismatch ts sb = true ↔
        ∃ b, sb = some b ∧ ts ≠ [] ∧ (1 : ℚ)/100 < |lastBalance ts - b|) ∧
    balanceMismatch (handleDataChangeBalances exampleEdit (calculateBalances exampleRows))
      (some 125) = false ∧
    balanceMismatch (handleDataChangeBalances exampleEdit (calculateBalances exampleRows))
      (some 130) = true := by
  refine ⟨?_, ?_, ?_⟩
  · intro ts sb
    unfold balanceMismatch
    rcases sb with _ | b
    · simp
    · by_cases hts : ts.length = 0
      · simp [hts, List.length_eq_zero.mp hts]
      · have hne : ts ≠ [] := by
          intro h
          subst h
          simp at hts
        simp [hts, hne]
  · simp [balanceMismatch, exampleEdit_lastBalance, exampleEdit_length]
  · simp [balanceMismatch, exampleEdit_lastBalance, exampleEdit_length]
    norm_num

/-! ### Claim theorems: filter evaluator (C7) -/

/-- C7: a row is in the filtered output exactly when it is in the ledger
and passes every active criterion conjointly — case-insensitive substring
on the description, exact category match, the three-way unusual selector,
inclusive lexicographic date bounds, inclusive parsed min/max bounds on
the absolute amount, and the transaction-type selector requiring a
positive parsed debit (resp. credit); unset criteria impose no
constraint. -/
theorem filteredTransactions_spec :
    ∀ (fs : Filters) (ts : List Transaction) (t : Transaction),
      t ∈ filteredTransactions fs ts ↔ t ∈ ts ∧ passesFilters fs t := by
  intro fs ts t
  unfold filteredTransactions
  rw [List.mem_filter, filterPred_iff]

/-! ### Claim theorems: suggestion race (C8) -/

/-- C8, exhibiting the code's behaviour on the claimed interleaving: a
row's date is edited to the invalid `"2023-02-30"`, which issues a
suggestion request; before it resolves, the user edits the same row to
the different valid date `"2024-02-29"` (so its error entry is clear);
the stale suggestion then arrives and **is** recorded in the date-error
table — the source applies it against the captured date only and never
re-validates against the row's current value, contradicting the claim
that such a late suggestion is discarded. -/
theorem staleSuggestion_recorded :
    (validateDate "2023-02-30").isValid = false ∧
    (validateDate "2024-02-29").isValid = true ∧
    lookupAssoc raceState2.dates 0 = some "2024-02-29" ∧
    lookupAssoc raceState2.dateErrors 0 = none ∧
    ({ rowId := 0, requestedDate := "2023-02-30" } : SuggestionRequest) ∈ raceState2.pending ∧
    lookupAssoc raceState3.dateErrors 0 =
      some { message := "Data inválida (ex: dia 31 em um mês com 30 dias).",
             suggestion := some "2023-03-02" } := by
  decide

end BankStatement
